import Mathlib

set_option linter.unusedVariables false

/-!
Verification development for the USSR score-server core: the bounded
expiring cache (`server/caches/lru_cache.py`), the score classification,
placement and accuracy logic (`server/scores/score.py`), the statistics
aggregator (`server/user/stats.py`) and the score submission handler
(`server/web/handlers/score_sub.py`).

The Python data structures are embedded shallowly: the cache dictionary
becomes an insertion-ordered association list (CPython dicts preserve
insertion order and keep the original position on overwrite), SQL tables
become lists of row records, timestamps are explicit `Nat` parameters and
floats are modelled as `ℚ` (every arithmetic operation involved is exact
on the inputs considered).
-/

/-- A cached object, mirroring the `CachedObject` TypedDict of
`lru_cache.py`: the stored value together with its expiry timestamp. -/
structure CachedObject (ν : Type) where
  expire : Nat
  obj : ν
  deriving DecidableEq

/-- The `Cache` class state of `lru_cache.py`: the `_cache` dict (as an
insertion-ordered association list), the ttl in seconds (`length`) and the
entry cap (`_cache_limit`). -/
structure Cache (κ ν : Type) where
  entries : List (κ × CachedObject ν)
  length : Nat
  cacheLimit : Nat
  deriving DecidableEq

/-- `Cache.__init__`: empty dict, ttl converted from minutes to seconds. -/
def Cache.init (κ ν : Type) (cacheLength cacheLimit : Nat) : Cache κ ν :=
  ⟨[], cacheLength * 60, cacheLimit⟩

/-- Python `dict.get`: first binding of the key, if any. -/
def dictGet {κ ν : Type} [DecidableEq κ] (l : List (κ × ν)) (k : κ) : Option ν :=
  (l.find? (fun p => decide (p.1 = k))).map Prod.snd

/-- Python `d[k] = v`: overwrite in place when the key is present
(position preserved), otherwise append at the end. -/
def dictSet {κ ν : Type} [DecidableEq κ] (l : List (κ × ν)) (k : κ) (v : ν) :
    List (κ × ν) :=
  if (l.find? (fun p => decide (p.1 = k))).isSome then
    l.map (fun p => if p.1 = k then (k, v) else p)
  else l ++ [(k, v)]

/-- `Cache.cached_items` / `__len__`. -/
def Cache.cachedItems {κ ν : Type} (st : Cache κ ν) : Nat :=
  st.entries.length

/-- `Cache._get_cached_keys`. -/
def Cache.getCachedKeys {κ ν : Type} (st : Cache κ ν) : List κ :=
  st.entries.map Prod.fst

/-- `Cache.drop`: `del self._cache[key]`, no error when absent. -/
def Cache.dropKey {κ ν : Type} [DecidableEq κ] (st : Cache κ ν) (key : κ) :
    Cache κ ν :=
  { st with entries := st.entries.filter (fun p => decide (p.1 ≠ key)) }

/-- `Cache.get`: `self._cache.get(key)` and, when a binding exists, its
`object` field.  The source performs no expiry test here and consults no
clock. -/
def Cache.get {κ ν : Type} [DecidableEq κ] (st : Cache κ ν) (key : κ) :
    Option ν :=
  (dictGet st.entries key).map CachedObject.obj

/-- `Cache._get_expired_cache`: keys whose `expire` is strictly below the
current timestamp. -/
def Cache.getExpiredCache {κ ν : Type} (st : Cache κ ν) (now : Nat) : List κ :=
  (st.entries.filter (fun p => decide (p.2.expire < now))).map Prod.fst

/-- `Cache._remove_expired_cache`: drop every expired key in turn. -/
def Cache.removeExpiredCache {κ ν : Type} [DecidableEq κ] (st : Cache κ ν)
    (now : Nat) : Cache κ ν :=
  (st.getExpiredCache now).foldl Cache.dropKey st

/-- Python list slicing `l[:n]` for a possibly negative `n`: a negative
index counts from the end and clamps at zero. -/
def pySliceTo {α : Type} (l : List α) (n : Int) : List α :=
  if 0 ≤ n then l.take n.toNat else l.take ((l.length : Int) + n).toNat

/-- `Cache._remove_limit_cache`.  `throw_away_count` is a Python `int`
and may be negative; the guard `if not throw_away_count` only returns when
it is exactly zero, so a negative count reaches the slice. -/
def Cache.removeLimitCache {κ ν : Type} [DecidableEq κ] (st : Cache κ ν) :
    Cache κ ν :=
  if (st.getCachedKeys.length : Int) - (st.cacheLimit : Int) = 0 then st
  else
    (pySliceTo st.getCachedKeys
      ((st.getCachedKeys.length : Int) - (st.cacheLimit : Int))).foldl
      Cache.dropKey st

/-- `Cache.run_checks`: expired sweep, then the limit pass. -/
def Cache.runChecks {κ ν : Type} [DecidableEq κ] (st : Cache κ ν) (now : Nat) :
    Cache κ ν :=
  (st.removeExpiredCache now).removeLimitCache

/-- `Cache.cache` (put): store the value with `expire = now + length`,
then run the maintenance checks. -/
def Cache.put {κ ν : Type} [DecidableEq κ] (st : Cache κ ν) (key : κ) (obj : ν)
    (now : Nat) : Cache κ ν :=
  Cache.runChecks
    { st with entries := dictSet st.entries key ⟨now + st.length, obj⟩ } now

/-- A sequence of `Cache.cache` calls, each given as (key, value, now). -/
def applyPuts (ops : List (Nat × Nat × Nat)) (st : Cache Nat Nat) :
    Cache Nat Nat :=
  ops.foldl (fun c op => c.put op.1 op.2.1 op.2.2) st

/-! ### Cache lemmas -/

/-- Dropping a list of keys one by one filters the entry list down to the
keys outside that list. -/
theorem foldl_dropKey_eq {κ ν : Type} [DecidableEq κ] (ks : List κ)
    (st : Cache κ ν) :
    ks.foldl Cache.dropKey st =
      { st with entries := st.entries.filter (fun p => decide (p.1 ∉ ks)) } := by
  induction ks generalizing st with
  | nil =>
    cases st with
    | mk entries length cacheLimit =>
      simp [List.filter_eq_self]
  | cons k ks ih =>
    show (ks.foldl Cache.dropKey (st.dropKey k)) = _
    rw [ih]
    cases st with
    | mk entries length cacheLimit =>
      simp only [Cache.dropKey, List.filter_filter]
      congr 1
      apply List.filter_congr
      intro x hx
      simp [List.mem_cons, not_or, Bool.and_comm]

/-- The expired-entry sweep only filters the entry list. -/
theorem removeExpiredCache_eq {κ ν : Type} [DecidableEq κ] (st : Cache κ ν)
    (now : Nat) :
    st.removeExpiredCache now =
      { st with entries :=
          (st.entries.filter (fun p => decide (p.1 ∉ st.getExpiredCache now))) } :=
  foldl_dropKey_eq _ _

/-- Generic counting bound: when a predicate rejects all of the first `c`
elements, the filtered list loses at least `c` elements. -/
theorem length_filter_le_of_take_false {α : Type} (l : List α) (p : α → Bool)
    (c : Nat) (h : ∀ x ∈ l.take c, p x = false) :
    (l.filter p).length ≤ l.length - c := by
  calc (l.filter p).length
      = ((l.take c ++ l.drop c).filter p).length := by
        rw [List.take_append_drop]
    _ = ((l.take c).filter p).length + ((l.drop c).filter p).length := by
        rw [List.filter_append, List.length_append]
    _ = ((l.drop c).filter p).length := by
        rw [List.filter_eq_nil_iff.mpr (fun a ha => by simp [h a ha])]
        simp
    _ ≤ (l.drop c).length := List.length_filter_le _ _
    _ = l.length - c := List.length_drop ..

/-- The limit pass always brings the entry count within the cap: when the
count exceeds the cap it trims down to exactly the cap, and when it is
below the cap the (buggy) negative slice can only remove further entries. -/
theorem cachedItems_removeLimitCache {κ ν : Type} [DecidableEq κ]
    (st : Cache κ ν) :
    st.removeLimitCache.cachedItems ≤ st.cacheLimit := by
  unfold Cache.removeLimitCache
  set n := st.getCachedKeys.length with hn
  have hlen : st.entries.length = n := by
    simp [hn, Cache.getCachedKeys]
  by_cases h0 : (n : Int) - (st.cacheLimit : Int) = 0
  · simp only [h0, if_pos rfl]
    have : n = st.cacheLimit := by omega
    simp [Cache.cachedItems, hlen, this]
  · rw [if_neg h0, foldl_dropKey_eq]
    simp only [Cache.cachedItems]
    by_cases hpos : 0 ≤ (n : Int) - (st.cacheLimit : Int)
    · -- the count is positive: the slice keeps the first n - limit keys
      have hc : ((n : Int) - (st.cacheLimit : Int)).toNat = n - st.cacheLimit := by
        omega
      have hslice : pySliceTo st.getCachedKeys ((n : Int) - (st.cacheLimit : Int))
          = (st.entries.map Prod.fst).take (n - st.cacheLimit) := by
        unfold pySliceTo
        rw [if_pos hpos, hc]
        rfl
      have hb := length_filter_le_of_take_false st.entries
        (fun p => decide (p.1 ∉ pySliceTo st.getCachedKeys
          ((n : Int) - (st.cacheLimit : Int)))) (n - st.cacheLimit) ?_
      · omega
      · intro x hx
        simp only [decide_eq_false_iff_not, not_not]
        have hmem : x.1 ∈ (st.entries.take (n - st.cacheLimit)).map Prod.fst :=
          List.mem_map_of_mem Prod.fst hx
        rw [List.map_take] at hmem
        rw [hslice]
        exact hmem
    · -- the count is negative: the entry count is already below the cap
      have : n < st.cacheLimit := by omega
      calc (st.entries.filter _).length ≤ st.entries.length :=
            List.length_filter_le _ _
        _ ≤ st.cacheLimit := by omega

/-- The limit pass never changes the configured cap. -/
theorem cacheLimit_removeLimitCache {κ ν : Type} [DecidableEq κ]
    (st : Cache κ ν) :
    st.removeLimitCache.cacheLimit = st.cacheLimit := by
  unfold Cache.removeLimitCache
  split
  · rfl
  · rw [foldl_dropKey_eq]

/-- A put never leaves more entries than the configured cap. -/
theorem cachedItems_put_le {κ ν : Type} [DecidableEq κ] (st : Cache κ ν)
    (key : κ) (obj : ν) (now : Nat) :
    (st.put key obj now).cachedItems ≤ st.cacheLimit := by
  unfold Cache.put Cache.runChecks
  rw [removeExpiredCache_eq]
  exact cachedItems_removeLimitCache _

/-- A put never changes the configured cap. -/
theorem cacheLimit_put {κ ν : Type} [DecidableEq κ] (st : Cache κ ν)
    (key : κ) (obj : ν) (now : Nat) :
    (st.put key obj now).cacheLimit = st.cacheLimit := by
  unfold Cache.put Cache.runChecks
  rw [removeExpiredCache_eq]
  exact cacheLimit_removeLimitCache _

/-- Auxiliary form of the size invariant for an arbitrary starting state. -/
theorem applyPuts_size_le (ops : List (Nat × Nat × Nat)) (st : Cache Nat Nat)
    (L : Nat) (hL : st.cacheLimit = L) (hne : ops ≠ []) :
    (applyPuts ops st).cachedItems ≤ L := by
  induction ops generalizing st with
  | nil => exact absurd rfl hne
  | cons op rest ih =>
    cases rest with
    | nil =>
      show (st.put op.1 op.2.1 op.2.2).cachedItems ≤ L
      rw [← hL]
      exact cachedItems_put_le ..
    | cons op2 rest2 =>
      show (applyPuts (op2 :: rest2) (st.put op.1 op.2.1 op.2.2)).cachedItems ≤ L
      exact ih _ (by rw [cacheLimit_put, hL]) (by simp)

/-! ### Claim C3 -/

/-- C3: for every sequence of `Cache.cache` (put) calls on a cache built
with capacity limit `L`, after each call the number of stored entries is
at most `L`.  (Every intermediate state is `applyPuts` of a nonempty
prefix, so quantifying over all nonempty sequences covers each call.) -/
theorem c3_put_size_bounded (L len : Nat) (ops : List (Nat × Nat × Nat))
    (hne : ops ≠ []) :
    (applyPuts ops (Cache.init Nat Nat len L)).cachedItems ≤ L :=
  applyPuts_size_le ops (Cache.init Nat Nat len L) L rfl hne

/-- Witness for C3 at a concrete sequence of puts. -/
theorem c3_put_size_bounded_witness :
    (applyPuts [(1, 10, 0), (2, 20, 0), (3, 30, 5)]
      (Cache.init Nat Nat 5 2)).cachedItems ≤ 2 :=
  c3_put_size_bounded 2 5 [(1, 10, 0), (2, 20, 0), (3, 30, 5)] (by decide)

/-! ### Claim C1 -/

/-- A one-minute-ttl cache holding key 7 (stored at time 0, so the entry
expires at timestamp 60). -/
def c1Cache : Cache Nat Nat := (Cache.init Nat Nat 1 500).put 7 42 0

/-- C1 counterexample: it is not true that a lookup never returns an entry
whose expiry has passed.  In `c1Cache` the entry for key 7 carries
`expire = 60`, yet at time 100 (`60 ≤ 100`) `get` still returns the value:
`Cache.get` consults no clock at all, and expired entries are only removed
by the maintenance pass of a later put. -/
theorem c1_counterexample :
    ¬ (∀ (st : Cache Nat Nat) (k now : Nat),
        (∃ e, dictGet st.entries k = some e ∧ e.expire ≤ now) →
          st.get k = none) := by
  intro h
  have h60 : dictGet c1Cache.entries 7 = some ⟨60, 42⟩ := by decide
  have := h c1Cache 7 100 ⟨⟨60, 42⟩, h60, by decide⟩
  have hget : c1Cache.get 7 = some 42 := by decide
  rw [hget] at this
  exact Option.noConfusion this

/-- C1 amended: `get` returns "absent" exactly for keys not present in the
cache dictionary; for a present key it returns the stored value whether or
not the entry is expired, and (being a pure read of the dictionary) it
never mutates the cache state. -/
theorem c1_get_absent_iff_not_stored (st : Cache Nat Nat) (k : Nat) :
    (k ∉ st.getCachedKeys → st.get k = none) ∧
    (k ∈ st.getCachedKeys → ∃ v, st.get k = some v) := by
  constructor
  · intro hk
    unfold Cache.get dictGet
    rw [List.find?_eq_none.mpr]
    · rfl
    · intro p hp
      simp only [decide_eq_true_eq]
      intro hpk
      exact hk (hpk ▸ List.mem_map_of_mem Prod.fst hp)
  · intro hk
    obtain ⟨p, hp, hpk⟩ := List.mem_map.mp hk
    unfold Cache.get dictGet
    have hex : (st.entries.find? (fun p => decide (p.1 = k))).isSome :=
      List.find?_isSome.mpr ⟨p, hp, by simp [hpk]⟩
    obtain ⟨q, hq⟩ := Option.isSome_iff_exists.mp hex
    rw [hq]
    exact ⟨q.2.obj, rfl⟩

/-- Witness for C1 as amended: key 9 is absent from `c1Cache`, so `get`
returns "absent" there. -/
theorem c1_get_absent_witness : c1Cache.get 9 = none :=
  (c1_get_absent_iff_not_stored c1Cache 9).1 (by decide)

/-! ### Claim C4 -/

/-- A capacity-3 cache after a single put (key 1 at time 0, five-minute
ttl: nothing is expired at time 0). -/
def c4CacheA : Cache Nat Nat := (Cache.init Nat Nat 5 3).put 1 10 0

/-- The same cache after a second put of a distinct key at the same time. -/
def c4CacheB : Cache Nat Nat := c4CacheA.put 2 20 0

/-- C4 evaluated at the failing input: with capacity 3, two puts of fresh,
unexpired, distinct keys leave only ONE entry — the maintenance pass
evicted key 1 even though the post-sweep size (2) was strictly below the
capacity (3).  The negative `throw_away_count` (2 − 3 = −1) passes the
`if not throw_away_count` guard and the Python slice `keys[:-1]` selects
key 1 for eviction, contradicting the claim (and the method's own
docstring, which promises eviction only once the cache reached its
limit). -/
theorem c4_eviction_below_capacity :
    c4CacheA.cachedItems = 1 ∧
    c4CacheB.cachedItems = 1 ∧
    c4CacheB.get 1 = none ∧
    c4CacheB.get 2 = some 20 := by
  refine ⟨by decide, by decide, by decide, by decide⟩

/-! ### Game constants

The `server/constants` enum modules (`modes`, `complete`, `c_modes`,
`privileges`, `statuses`, `mods`) are not under `src/`; only their callers
are.  The definitions below are modelled from the spec and from the literal
enum values visible in the src SQL strings (`completed = 3` for a best
score, `b.ranked IN (2, 3)` for ranked/approved, `Status.RANKED` guarding
ranked-score gains). -/

/-- Modelled from the spec: the four game modes of the primary rulesets
(the `Mode` enum module is not under src; the variants are visible in
`Score.calc_accuracy`). -/
inductive Mode
  | standard
  | taiko
  | catch
  | mania
  deriving DecidableEq

/-- Modelled from the spec: the scoring variants ("custom modes", module
not under src).  A variant whose ranking is performance-based reports
`usesPpboard = true`; the plain variant is ranked by raw score. -/
inductive CustomModes
  | vanilla
  | relax
  | autopilot
  deriving DecidableEq

/-- Modelled from the spec: scoring variants whose ranking is
performance-based ("pp") versus ranked by raw score, selected
per scoring-variant. -/
def CustomModes.usesPpboard : CustomModes → Bool
  | .vanilla => false
  | .relax => true
  | .autopilot => true

/-- Modelled from the spec: the completion classification enum
(`BEST | COMPLETE | FAILED | QUIT`; module not under src).  The numeric
value of `BEST` is 3, visible in the src queries `completed = 3`. -/
inductive Completed
  | quit
  | failed
  | complete
  | best
  deriving DecidableEq

/-- The beatmap attributes the pipeline reads (`has_leaderboard`, ranked
`status`, `md5`); the beatmap class itself lives outside the modelled
core.  `RANKED` status is 2 (visible in src as `b.ranked IN (2,3)` for
ranked/approved and the ranked-score gate). -/
structure Beatmap where
  md5 : String
  hasLeaderboard : Bool
  status : Int
  deriving DecidableEq

/-- A row of the per-variant scores table, with the columns the modelled
queries read or write.  The `cMode` field stands for the choice of table
(`scores` / `scores_relax` / `scores_ap`): every modelled query filters on
it, mirroring `c_mode.db_table` selection. -/
structure ScoreRow where
  id : Nat
  userId : Nat
  md5 : String
  score : Nat
  maxCombo : Nat
  mods : Nat
  mode : Mode
  cMode : CustomModes
  completed : Completed
  pp : ℚ
  accuracy : ℚ
  deriving DecidableEq

/-- A row of the `users` table as the placement join reads it: the id and
whether the privilege bitmask contains `USER_PUBLIC` (privileges module
not under src; modelled from the spec as a publicly-visible flag). -/
structure UserRow where
  id : Nat
  public : Bool
  deriving DecidableEq

/-- The in-flight `Score` dataclass of `server/scores/score.py`. -/
structure Score where
  id : Nat
  bmap : Option Beatmap
  userId : Nat
  score : Nat
  maxCombo : Nat
  fullCombo : Bool
  passed : Bool
  quit : Bool
  mods : Nat
  cMode : CustomModes
  count300 : Nat
  count100 : Nat
  count50 : Nat
  countKatu : Nat
  countGeki : Nat
  countMiss : Nat
  timestamp : Nat
  mode : Mode
  completed : Option Completed
  accuracy : ℚ
  pp : ℚ
  playTime : Nat
  placement : Nat
  grade : String
  sr : ℚ
  username : String
  deriving DecidableEq

/-- `Score.calc_accuracy`.  The source divides by a denominator built from
judgement counts; when the relevant counts are all zero Python raises
`ZeroDivisionError`, modelled as `none`. -/
def Score.calcAccuracy (s : Score) : Option ℚ :=
  match s.mode with
  | .standard =>
    if ((s.count300 + s.count100 + s.count50 + s.countMiss : Nat) : ℚ) * 300 = 0
    then none
    else some ((((s.count50 * 50 + s.count100 * 100 + s.count300 * 300 : Nat) : ℚ)
      / (((s.count300 + s.count100 + s.count50 + s.countMiss : Nat) : ℚ) * 300))
      * 100)
  | .taiko =>
    if ((s.count300 + s.count100 + s.countMiss : Nat) : ℚ) * 100 = 0 then none
    else some ((((s.count100 * 50 + s.count300 * 100 : Nat) : ℚ)
      / (((s.count300 + s.count100 + s.countMiss : Nat) : ℚ) * 100)) * 100)
  | .catch =>
    if ((s.count300 + s.count100 + s.count50 + s.countMiss
      + s.countKatu : Nat) : ℚ) = 0 then none
    else some ((((s.count300 + s.count100 + s.count50 : Nat) : ℚ)
      / ((s.count300 + s.count100 + s.count50 + s.countMiss
        + s.countKatu : Nat) : ℚ)) * 100)
  | .mania =>
    if ((s.countMiss + s.count50 + s.count100 + s.count300
      + s.countGeki + s.countKatu : Nat) : ℚ) * 300 = 0 then none
    else some ((((s.count50 * 50 + s.count100 * 100 + s.countKatu * 200
      + s.count300 * 300 + s.countGeki * 300 : Nat) : ℚ)
      / (((s.countMiss + s.count50 + s.count100 + s.count300
        + s.countGeki + s.countKatu : Nat) : ℚ) * 300)) * 100)

/-- The condition of the `calc_completed` queries: an existing row of the
same player, map and mode in this variant's table holding `BEST`. -/
def bestRowMatch (uid : Nat) (md5 : String) (mode : Mode) (cm : CustomModes)
    (r : ScoreRow) : Bool :=
  decide (r.cMode = cm) && decide (r.userId = uid) && decide (r.md5 = md5)
    && decide (r.mode = mode) && decide (r.completed = Completed.best)

/-- The `UPDATE ... SET completed = COMPLETE WHERE <bestRowMatch> AND
pp < val LIMIT 1` of `calc_completed`: demote the first matching row. -/
def demoteFirstBest (uid : Nat) (md5 : String) (mode : Mode)
    (cm : CustomModes) (val : ℚ) : List ScoreRow → List ScoreRow
  | [] => []
  | r :: rs =>
    if bestRowMatch uid md5 mode cm r ∧ r.pp < val then
      { r with completed := Completed.complete } :: rs
    else r :: demoteFirstBest uid md5 mode cm val rs

/-- `Score.calc_completed`.  Returns the classification and the updated
scores table; `none` models the attribute error raised when the score has
no beatmap attached.  Note the source sets `scoring = "pp"` and
`val = self.pp` with NO `uses_ppboard` test (unlike `calc_placement`): the
comparison against the stored best always uses the performance value, for
every scoring variant. -/
def Score.calcCompleted (s : Score) (rows : List ScoreRow) :
    Option (Completed × List ScoreRow) :=
  if s.placement = 1 then some (Completed.best, rows)
  else if s.quit then some (Completed.quit, rows)
  else if ¬ s.passed then some (Completed.failed, rows)
  else
    match s.bmap with
    | none => none
    | some bm =>
      if ¬ bm.hasLeaderboard then some (Completed.complete, rows)
      else
        let val := s.pp
        let rows2 := demoteFirstBest s.userId bm.md5 s.mode s.cMode val rows
        if rows2.any (bestRowMatch s.userId bm.md5 s.mode s.cMode) then
          some (Completed.complete, rows2)
        else some (Completed.best, rows2)

/-- The `INNER JOIN users` visibility test of `calc_placement`:
the player exists and carries the `USER_PUBLIC` privilege bit. -/
def userIsPublic (users : List UserRow) (uid : Nat) : Bool :=
  match users.find? (fun u => decide (u.id = uid)) with
  | some u => u.public
  | none => false

/-- The ranking metric column `calc_placement` compares
(`"pp" if uses_ppboard else "score"`). -/
def rowMetric (cm : CustomModes) (r : ScoreRow) : ℚ :=
  if cm.usesPpboard then r.pp else (r.score : ℚ)

/-- The submitted score's own value on that metric. -/
def Score.placeVal (s : Score) : ℚ :=
  if s.cMode.usesPpboard then s.pp else (s.score : ℚ)

/-- The row filter of the `calc_placement` count: same table, publicly
visible player, same game mode, classified `BEST`, same beatmap.  The
query has no condition on `userid` — the submitting player's own rows
qualify. -/
def placeEligible (s : Score) (users : List UserRow) (md5 : String)
    (r : ScoreRow) : Bool :=
  decide (r.cMode = s.cMode) && userIsPublic users r.userId
    && decide (r.mode = s.mode) && decide (r.completed = Completed.best)
    && decide (r.md5 = md5)

/-- `Score.calc_placement`: 0 when the play failed (short-circuiting
before the beatmap is touched) or the map has no leaderboard, else one
plus the count of eligible `BEST` rows with strictly greater metric;
`none` models the attribute error when a passed score has no beatmap. -/
def Score.calcPlacement (s : Score) (rows : List ScoreRow)
    (users : List UserRow) : Option Nat :=
  if ¬ s.passed then some 0
  else
    match s.bmap with
    | none => none
    | some bm =>
      if ¬ bm.hasLeaderboard then some 0
      else
        some ((rows.filter (fun r => placeEligible s users bm.md5 r
          && decide (s.placeVal < rowMetric s.cMode r))).length + 1)

/-! ### Claim C10 -/

/-- A template score used to build concrete instances. -/
def baseScore : Score where
  id := 0
  bmap := none
  userId := 1
  score := 0
  maxCombo := 0
  fullCombo := false
  passed := true
  quit := false
  mods := 0
  cMode := CustomModes.vanilla
  count300 := 0
  count100 := 0
  count50 := 0
  countKatu := 0
  countGeki := 0
  countMiss := 0
  timestamp := 0
  mode := Mode.standard
  completed := none
  accuracy := 0
  pp := 0
  playTime := 0
  placement := 0
  grade := "X"
  sr := 0
  username := "p"

/-- C10: `calc_accuracy` is not total — in each mode, when the judgement
counts appearing in that mode's denominator are all zero the computation
divides by zero (modelled as `none`); conversely a nonzero count in
standard mode always yields a value, so callers must guarantee at least
one nonzero judgement count. -/
theorem c10_calc_accuracy_div_zero (s : Score) :
    (s.mode = Mode.standard →
      s.count300 + s.count100 + s.count50 + s.countMiss = 0 →
      s.calcAccuracy = none) ∧
    (s.mode = Mode.taiko →
      s.count300 + s.count100 + s.countMiss = 0 →
      s.calcAccuracy = none) ∧
    (s.mode = Mode.catch →
      s.count300 + s.count100 + s.count50 + s.countMiss + s.countKatu = 0 →
      s.calcAccuracy = none) ∧
    (s.mode = Mode.mania →
      s.countMiss + s.count50 + s.count100 + s.count300 + s.countGeki
        + s.countKatu = 0 →
      s.calcAccuracy = none) ∧
    (s.mode = Mode.standard →
      s.count300 + s.count100 + s.count50 + s.countMiss ≠ 0 →
      (s.calcAccuracy).isSome = true) := by
  refine ⟨fun hm hz => ?_, fun hm hz => ?_, fun hm hz => ?_,
    fun hm hz => ?_, fun hm hnz => ?_⟩
  · have h0 : ((s.count300 + s.count100 + s.count50 + s.countMiss : Nat) : ℚ)
        * 300 = 0 := by rw [hz]; norm_num
    simp only [Score.calcAccuracy, hm]
    rw [if_pos h0]
  · have h0 : ((s.count300 + s.count100 + s.countMiss : Nat) : ℚ) * 100 = 0 := by
      rw [hz]; norm_num
    simp only [Score.calcAccuracy, hm]
    rw [if_pos h0]
  · have h0 : ((s.count300 + s.count100 + s.count50 + s.countMiss
        + s.countKatu : Nat) : ℚ) = 0 := by rw [hz]; norm_num
    simp only [Score.calcAccuracy, hm]
    rw [if_pos h0]
  · have h0 : ((s.countMiss + s.count50 + s.count100 + s.count300
        + s.countGeki + s.countKatu : Nat) : ℚ) * 300 = 0 := by
      rw [hz]; norm_num
    simp only [Score.calcAccuracy, hm]
    rw [if_pos h0]
  · have h0 : ¬ (((s.count300 + s.count100 + s.count50 + s.countMiss : Nat) : ℚ)
        * 300 = 0) := by
      simp only [mul_eq_zero, Nat.cast_eq_zero]
      push_neg
      exact ⟨hnz, by norm_num⟩
    simp only [Score.calcAccuracy, hm]
    rw [if_neg h0]
    rfl

/-- Witness for C10: an all-zero standard-mode score has no accuracy. -/
theorem c10_calc_accuracy_div_zero_witness : baseScore.calcAccuracy = none :=
  (c10_calc_accuracy_div_zero baseScore).1 rfl rfl

/-! ### Claim C2 -/

/-- When a filter returns a single row, every matching element of the
source list is that row. -/
theorem eq_of_filter_single {α : Type} {p : α → Bool} {l : List α} {b : α}
    (h : l.filter p = [b]) : ∀ x ∈ l, p x = true → x = b := by
  intro x hx hpx
  have : x ∈ l.filter p := List.mem_filter.mpr ⟨hx, hpx⟩
  rw [h] at this
  simpa using this

/-- A demoted row no longer holds the `BEST` classification. -/
theorem bestRowMatch_demoted (uid : Nat) (md5 : String) (mode : Mode)
    (cm : CustomModes) (r : ScoreRow) :
    bestRowMatch uid md5 mode cm { r with completed := Completed.complete }
      = false := by
  simp [bestRowMatch]

/-- The demote update is the identity when no matching best row is beaten. -/
theorem demoteFirstBest_of_no_beat (uid : Nat) (md5 : String) (mode : Mode)
    (cm : CustomModes) (val : ℚ) (rows : List ScoreRow)
    (h : ∀ r ∈ rows, bestRowMatch uid md5 mode cm r = true → ¬ r.pp < val) :
    demoteFirstBest uid md5 mode cm val rows = rows := by
  induction rows with
  | nil => rfl
  | cons r rs ih =>
    unfold demoteFirstBest
    rw [if_neg]
    · rw [ih (fun x hx hpx => h x (List.mem_cons_of_mem r hx) hpx)]
    · rintro ⟨hm, hlt⟩
      exact h r (List.mem_cons_self ..) hm hlt

/-- When the single matching best row is beaten, the demote update leaves
no `BEST` row for the player on this map at all. -/
theorem demoteFirstBest_filter_nil (uid : Nat) (md5 : String) (mode : Mode)
    (cm : CustomModes) (val : ℚ) {rows : List ScoreRow} {b : ScoreRow}
    (hb : rows.filter (bestRowMatch uid md5 mode cm) = [b])
    (hlt : b.pp < val) :
    (demoteFirstBest uid md5 mode cm val rows).filter
      (bestRowMatch uid md5 mode cm) = [] := by
  induction rows with
  | nil => simp at hb
  | cons r rs ih =>
    by_cases hm : bestRowMatch uid md5 mode cm r = true
    · have hr : r = b :=
        eq_of_filter_single hb r (List.mem_cons_self ..) hm
      have hrest : rs.filter (bestRowMatch uid md5 mode cm) = [] := by
        rw [List.filter_cons_of_pos hm] at hb
        exact (List.cons_eq_cons.mp hb).2
      subst hr
      unfold demoteFirstBest
      rw [if_pos ⟨hm, hlt⟩, List.filter_cons_of_neg (by
        simp [bestRowMatch_demoted])]
      exact hrest
    · have hb2 : rs.filter (bestRowMatch uid md5 mode cm) = [b] := by
        rwa [List.filter_cons_of_neg (by simp [hm])] at hb
      unfold demoteFirstBest
      rw [if_neg (by rintro ⟨hm2, _⟩; exact hm hm2),
        List.filter_cons_of_neg (by simp [hm])]
      exact ih hb2

/-- C2 amended: in the relational branch of `calc_completed` (placement
not already 1, not a quit, passed, map has a leaderboard) with exactly one
existing `BEST` row for the player/map/mode in this variant's table, the
new score is classified `BEST` — and the existing row demoted — exactly
when its PERFORMANCE VALUE strictly exceeds the existing row's performance
value, for every scoring variant alike (the source sets `scoring = "pp"`
unconditionally here, unlike `calc_placement`; the raw score is never
consulted); otherwise the new score is `COMPLETE` and the table is
untouched. -/
theorem c2_calc_completed_metric_is_pp (s : Score) (bm : Beatmap)
    (b : ScoreRow) (rows : List ScoreRow)
    (hbm : s.bmap = some bm) (hlb : bm.hasLeaderboard = true)
    (hp : s.placement ≠ 1) (hq : s.quit = false) (hpass : s.passed = true)
    (hb : rows.filter (bestRowMatch s.userId bm.md5 s.mode s.cMode) = [b]) :
    s.calcCompleted rows =
      some (if b.pp < s.pp then Completed.best else Completed.complete,
        demoteFirstBest s.userId bm.md5 s.mode s.cMode s.pp rows) ∧
    (demoteFirstBest s.userId bm.md5 s.mode s.cMode s.pp rows).filter
        (bestRowMatch s.userId bm.md5 s.mode s.cMode) =
      (if b.pp < s.pp then [] else [b]) := by
  unfold Score.calcCompleted
  rw [if_neg hp, if_neg (by simp [hq]), if_neg (by simp [hpass]), hbm]
  simp only
  rw [if_neg (by simp [hlb])]
  by_cases hlt : b.pp < s.pp
  · have hnil := demoteFirstBest_filter_nil s.userId bm.md5 s.mode s.cMode
      s.pp hb hlt
    have hany : (demoteFirstBest s.userId bm.md5 s.mode s.cMode s.pp rows).any
        (bestRowMatch s.userId bm.md5 s.mode s.cMode) = false := by
      rw [List.any_eq_false]
      intro x hx
      have := List.filter_eq_nil_iff.mp hnil x hx
      simpa using this
    rw [hany]
    simp [if_pos hlt, hnil]
  · have hid : demoteFirstBest s.userId bm.md5 s.mode s.cMode s.pp rows
        = rows := by
      apply demoteFirstBest_of_no_beat
      intro r hr hm
      rw [eq_of_filter_single hb r hr hm]
      exact hlt
    have hbmem : b ∈ rows.filter (bestRowMatch s.userId bm.md5 s.mode s.cMode) := by
      rw [hb]; exact List.mem_cons_self ..
    have hany : rows.any (bestRowMatch s.userId bm.md5 s.mode s.cMode)
        = true := by
      rw [List.any_eq_true]
      exact ⟨b, (List.mem_filter.mp hbmem).1, (List.mem_filter.mp hbmem).2⟩
    rw [hid, hany]
    simp [if_neg hlt, hb]

/-- The beatmap of the C2 counterexample: ranked, with a leaderboard. -/
def c2Bmap : Beatmap := ⟨"m1", true, 2⟩

/-- The C2 counterexample submission: a VANILLA-variant score whose raw
score (200) strictly exceeds the stored best's raw score (100), but whose
performance value (10) does not exceed the stored best's (50). -/
def c2Score : Score :=
  { baseScore with
    bmap := some c2Bmap
    cMode := CustomModes.vanilla
    score := 200
    pp := 10 }

/-- The stored best row the C2 counterexample compares against. -/
def c2Row : ScoreRow :=
  ⟨5, 1, "m1", 100, 0, 0, Mode.standard, CustomModes.vanilla,
    Completed.best, 50, 0⟩

/-- C2 counterexample: for the raw-score-ranked vanilla variant the claim
predicts `BEST` (the new raw-score metric 200 strictly exceeds the stored
best's 100), but the code classifies the score `COMPLETE` and leaves the
table untouched, because `calc_completed` compares performance values
(10 against 50) for every variant. -/
theorem c2_counterexample :
    c2Score.calcCompleted [c2Row] = some (Completed.complete, [c2Row]) ∧
    rowMetric c2Score.cMode c2Row < c2Score.placeVal := by
  constructor
  · decide
  · decide

/-- Witness for C2 as amended, at a pp-ranked (relax) instance where the
new performance value 60 beats the stored 50: the new score is `BEST` and
the stored row is demoted. -/
theorem c2_calc_completed_metric_is_pp_witness :
    Score.calcCompleted
        { baseScore with
          bmap := some ⟨"m2", true, 2⟩
          cMode := CustomModes.relax
          pp := 60 }
        [⟨6, 1, "m2", 0, 0, 0, Mode.standard, CustomModes.relax,
          Completed.best, 50, 0⟩] =
      some (Completed.best,
        [⟨6, 1, "m2", 0, 0, 0, Mode.standard, CustomModes.relax,
          Completed.complete, 50, 0⟩]) := by
  have h := (c2_calc_completed_metric_is_pp
    { baseScore with
      bmap := some ⟨"m2", true, 2⟩
      cMode := CustomModes.relax
      pp := 60 }
    ⟨"m2", true, 2⟩
    ⟨6, 1, "m2", 0, 0, 0, Mode.standard, CustomModes.relax,
      Completed.best, 50, 0⟩
    [⟨6, 1, "m2", 0, 0, 0, Mode.standard, CustomModes.relax,
      Completed.best, 50, 0⟩]
    rfl rfl (by decide) rfl rfl (by decide)).1
  rw [h]
  decide

/-! ### Claim C6 -/

/-- Modelled from the spec: the placement as the claim words it — only
OTHER players' best rows are counted (`r.userId ≠ s.userId`), everything
else as in the source computation.  Used solely to compare the source
behaviour against the claim. -/
def calcPlacementClaimed (s : Score) (rows : List ScoreRow)
    (users : List UserRow) : Option Nat :=
  if ¬ s.passed then some 0
  else
    match s.bmap with
    | none => none
    | some bm =>
      if ¬ bm.hasLeaderboard then some 0
      else
        some ((rows.filter (fun r => decide (r.userId ≠ s.userId)
          && placeEligible s users bm.md5 r
          && decide (s.placeVal < rowMetric s.cMode r))).length + 1)

/-- The C6 counterexample submission: user 1's passed vanilla score of
raw value 100 on a ranked map. -/
def c6Score : Score :=
  { baseScore with
    bmap := some ⟨"m3", true, 2⟩
    cMode := CustomModes.vanilla
    score := 100 }

/-- A stored BEST row of the SAME user (user 1) with a strictly greater
raw score on the same map and mode. -/
def c6Row : ScoreRow :=
  ⟨7, 1, "m3", 200, 0, 0, Mode.standard, CustomModes.vanilla,
    Completed.best, 0, 0⟩

/-- C6 counterexample: the placement query has no `userid` clause, so the
submitting player's OWN surviving best row (raw score 200 > 100) is
counted: the source computes placement 2, while the claim ("other
players' best rows ... plus one") yields 1. -/
theorem c6_counterexample :
    c6Score.calcPlacement [c6Row] [⟨1, true⟩] = some 2 ∧
    calcPlacementClaimed c6Score [c6Row] [⟨1, true⟩] = some 1 := by
  constructor
  · decide
  · decide

/-- C6 amended: `calc_placement` returns 0 whenever the play did not pass
or the beatmap has no ranked leaderboard; otherwise it returns k + 1
where k is the number of eligible (publicly visible) players' BEST rows
on the beatmap/mode/variant — the submitting player's own rows included —
whose ranking metric strictly exceeds the new score's.  Stated through an
arbitrary re-ordering `ms` of the eligible metrics split at position `k`:
the top `k` all beat the new value and the rest all fall below it. -/
theorem c6_calc_placement_count (s : Score) (bm : Beatmap)
    (rows : List ScoreRow) (users : List UserRow) (ms : List ℚ) (k : Nat)
    (hbm : s.bmap = some bm)
    (hperm : ((rows.filter (placeEligible s users bm.md5)).map
      (rowMetric s.cMode)).Perm ms)
    (hk : k ≤ ms.length)
    (hgt : ∀ m ∈ ms.take k, s.placeVal < m)
    (hlt : ∀ m ∈ ms.drop k, m < s.placeVal) :
    (s.passed = false → s.calcPlacement rows users = some 0) ∧
    (bm.hasLeaderboard = false → s.calcPlacement rows users = some 0) ∧
    (s.passed = true → bm.hasLeaderboard = true →
      s.calcPlacement rows users = some (k + 1)) := by
  refine ⟨fun hp => ?_, fun hlb => ?_, fun hp hlb => ?_⟩
  · unfold Score.calcPlacement
    rw [if_pos (by simp [hp])]
  · unfold Score.calcPlacement
    split
    · rfl
    · rw [hbm]
      simp only [Option.some.injEq]
      rw [if_pos (by simp [hlb])]
  · unfold Score.calcPlacement
    rw [if_neg (by simp [hp]), hbm]
    simp only
    rw [if_neg (by simp [hlb])]
    have hcount : (rows.filter (fun r => placeEligible s users bm.md5 r
        && decide (s.placeVal < rowMetric s.cMode r))).length = k := by
      have h1 : (rows.filter (fun r => placeEligible s users bm.md5 r
          && decide (s.placeVal < rowMetric s.cMode r))).length
          = rows.countP (fun r => decide (s.placeVal < rowMetric s.cMode r)
            && placeEligible s users bm.md5 r) := by
        rw [← List.countP_eq_length_filter]
        apply List.countP_congr
        intro r hr
        rw [Bool.and_comm]
      have h2 : rows.countP (fun r => decide (s.placeVal < rowMetric s.cMode r)
          && placeEligible s users bm.md5 r)
          = ((rows.filter (placeEligible s users bm.md5)).map
            (rowMetric s.cMode)).countP (fun m => decide (s.placeVal < m)) := by
        rw [List.countP_map, List.countP_filter]
        rfl
      have h3 : ((rows.filter (placeEligible s users bm.md5)).map
          (rowMetric s.cMode)).countP (fun m => decide (s.placeVal < m))
          = ms.countP (fun m => decide (s.placeVal < m)) :=
        hperm.countP_eq _
      have h4 : ms.countP (fun m => decide (s.placeVal < m)) = k := by
        have hsplit : ms.countP (fun m => decide (s.placeVal < m))
            = (ms.take k).countP (fun m => decide (s.placeVal < m))
              + (ms.drop k).countP (fun m => decide (s.placeVal < m)) := by
          rw [← List.countP_append, List.take_append_drop]
        have htake : (ms.take k).countP (fun m => decide (s.placeVal < m))
            = k := by
          rw [List.countP_eq_length.mpr (fun m hm => by
            simpa using hgt m hm)]
          rw [List.length_take]
          omega
        have hdrop : (ms.drop k).countP (fun m => decide (s.placeVal < m))
            = 0 := by
          apply Nat.eq_zero_of_le_zero
          apply Nat.le_of_lt_succ
          rw [Nat.lt_succ_iff, Nat.le_zero, List.countP_eq_zero]
          intro m hm
          simpa using not_lt_of_lt (hlt m hm)
        rw [hsplit, htake, hdrop]
        omega
      rw [h1, h2, h3, h4]
    rw [hcount]

/-- Witness for C6 as amended: one other public player's best row at
metric 200 beats the new raw value 100, so the placement is 2. -/
theorem c6_calc_placement_count_witness :
    c6Score.calcPlacement
      [⟨8, 2, "m3", 200, 0, 0, Mode.standard, CustomModes.vanilla,
        Completed.best, 0, 0⟩] [⟨2, true⟩] = some 2 := by
  have h := (c6_calc_placement_count c6Score ⟨"m3", true, 2⟩
    [⟨8, 2, "m3", 200, 0, 0, Mode.standard, CustomModes.vanilla,
      Completed.best, 0, 0⟩] [⟨2, true⟩] [(200 : ℚ)] 1
    rfl (by decide) (by decide) (by decide) (by decide)).2.2 rfl rfl
  exact h

/-! ### Statistics aggregator (`server/user/stats.py`) -/

/-- The `Stats` dataclass fields the modelled code reads and writes,
per (player, mode, scoring-variant). -/
structure StatsRow where
  userId : Nat
  mode : Mode
  cMode : CustomModes
  rankedScore : Int
  totalScore : Int
  pp : ℚ
  accuracy : ℚ
  playcount : Nat
  maxCombo : Nat
  totalHits : Nat
  requiredRecalcPp : ℚ
  curBonusPp : ℚ
  deriving DecidableEq

/-- A row of the `beatmaps` table as the aggregator joins read it:
the hash and the ranked status. -/
structure BmapRow where
  md5 : String
  ranked : Int
  deriving DecidableEq

/-- The `RIGHT JOIN beatmaps ... WHERE b.ranked IN (...)` test (the WHERE
clause on the scores side makes the right join behave as an inner join). -/
def bmapRankedIn23 (beatmaps : List BmapRow) (md5 : String) : Bool :=
  match beatmaps.find? (fun b => decide (b.md5 = md5)) with
  | some b => decide (b.ranked = 3) || decide (b.ranked = 2)
  | none => false

/-- The row condition shared by the top-100 query of
`recalc_pp_acc_full` and the count query of `__calc_bonus_pp`:
completed = 3 (best), same mode, same player, on a ranked/approved map,
in this variant's table. -/
def statsQualifies (beatmaps : List BmapRow) (uid : Nat) (mode : Mode)
    (cm : CustomModes) (r : ScoreRow) : Bool :=
  decide (r.cMode = cm) && decide (r.completed = Completed.best)
    && decide (r.mode = mode) && decide (r.userId = uid)
    && bmapRankedIn23 beatmaps r.md5

/-- Insertion step for a stable descending sort on a rational key. -/
def insertDescBy {α : Type} (f : α → ℚ) (x : α) : List α → List α
  | [] => [x]
  | y :: ys => if f y < f x then x :: y :: ys else y :: insertDescBy f x ys

/-- The `ORDER BY ... DESC` of the top-100 query (ties are returned in an
engine-chosen order; the spec leaves tie-breaking open). -/
def sortDescBy {α : Type} (f : α → ℚ) : List α → List α
  | [] => []
  | x :: xs => insertDescBy f x (sortDescBy f xs)

/-- The count of `__calc_bonus_pp`.  The source query is
`SELECT COUNT(*) FROM ... LIMIT 25397`: the LIMIT clause bounds the rows
of the one-row aggregate result set, not the rows being counted, so the
count itself is NOT capped. -/
def bonusCount (scores : List ScoreRow) (beatmaps : List BmapRow)
    (uid : Nat) (mode : Mode) (cm : CustomModes) : Nat :=
  (scores.filter (statsQualifies beatmaps uid mode cm)).length

/-- The bonus formula of `__calc_bonus_pp`:
`416.6667 * (1 - 0.9994 ** count)`. -/
def calcBonusPp (count : Nat) : ℚ :=
  (416.6667 : ℚ) * (1 - (0.9994 : ℚ) ^ count)

/-- The accumulation loop of `recalc_pp_acc_full` over the fetched
(accuracy, pp) pairs: weighted totals, the last enumerated index and the
last pp value (leaked from the loop as in the source).  Returns
(t_acc, t_pp, lst_idx, last_pp). -/
def recalcLoopAux (idx : Nat) (tAcc tPp : ℚ) (lstIdx : Nat) (lastPp : ℚ) :
    List (ℚ × ℚ) → ℚ × ℚ × Nat × ℚ
  | [] => (tAcc, tPp, lstIdx, lastPp)
  | (sAcc, sPp) :: rest =>
    recalcLoopAux (idx + 1) (tAcc + sAcc * (0.95 : ℚ) ^ idx)
      (tPp + sPp * (0.95 : ℚ) ^ idx) idx sPp rest

/-- The fast-path guard of `recalc_pp_acc_full`: the prompting pp argument
was passed and falls below the cached recalculation threshold. -/
def runPpBelowThreshold (st : StatsRow) (runPp : Option ℚ) : Bool :=
  match runPp with
  | some rp => decide (rp < st.requiredRecalcPp)
  | none => false

/-- `Stats.recalc_pp_acc_full`.  The fast path (a truthy cached
recalculation threshold that the prompting score's pp does not reach)
refreshes only the bonus term; the full path recomputes the weighted sums
over the player's top 100 qualifying best scores ordered by pp descending,
normalizes the accuracy by the last enumerated index plus one, caches the
100th score's pp as the new threshold when 100 scores were summed, and
adds the (uncapped) bonus. -/
def recalcPpAccFull (scores : List ScoreRow) (beatmaps : List BmapRow)
    (st : StatsRow) (runPp : Option ℚ) : StatsRow :=
  if st.requiredRecalcPp ≠ 0 ∧ runPpBelowThreshold st runPp = true then
    let bonus := calcBonusPp (bonusCount scores beatmaps st.userId st.mode st.cMode)
    { st with
      pp := st.pp - st.curBonusPp + bonus
      curBonusPp := bonus }
  else
    let top := (sortDescBy ScoreRow.pp
      (scores.filter (statsQualifies beatmaps st.userId st.mode st.cMode))).take 100
    let sums := recalcLoopAux 0 0 0 0 0 (top.map (fun r => (r.accuracy, r.pp)))
    let st1 := if sums.2.2.1 = 99
      then { st with requiredRecalcPp := sums.2.2.2 } else st
    let bonus := calcBonusPp (bonusCount scores beatmaps st.userId st.mode st.cMode)
    { st1 with
      accuracy := (sums.1 * ((100 : ℚ)
        / (20 * (1 - (0.95 : ℚ) ^ (sums.2.2.1 + 1))))) / 100
      pp := sums.2.1 + bonus
      curBonusPp := bonus }

/-! ### Claim C9 -/

/-- A qualifying best score row on the ranked map "m9" for user 1. -/
def c9Row : ScoreRow :=
  ⟨9, 1, "m9", 0, 0, 0, Mode.standard, CustomModes.vanilla,
    Completed.best, 1, 1⟩

/-- C9 evaluated at the failing input: with 25,398 qualifying rows the
code's bonus count is 25,398 — the `LIMIT 25397` clause of the COUNT
query does not cap the aggregate — and the resulting bonus term is
strictly different from the capped one the claim (and the source's own
comment "Max limit is 25397 to get max bonus pp") requires. -/
theorem c9_bonus_count_not_capped :
    bonusCount (List.replicate 25398 c9Row) [⟨"m9", 2⟩] 1 Mode.standard
        CustomModes.vanilla = 25398 ∧
    25398 ≠ min 25398 25397 ∧
    calcBonusPp 25398 ≠ calcBonusPp 25397 := by
  refine ⟨?_, by decide, ?_⟩
  · have hq : statsQualifies [⟨"m9", 2⟩] 1 Mode.standard CustomModes.vanilla
        c9Row = true := by decide
    rw [bonusCount, List.filter_replicate, if_pos hq, List.length_replicate]
  · intro heq
    have hlt : (0.9994 : ℚ) ^ 25398 < (0.9994 : ℚ) ^ 25397 :=
      pow_lt_pow_right_of_lt_one₀ (by norm_num) (by norm_num) (by norm_num)
    rw [calcBonusPp, calcBonusPp] at heq
    have hcancel := mul_left_cancel₀
      (show (416.6667 : ℚ) ≠ 0 by norm_num) heq
    have : (0.9994 : ℚ) ^ 25398 = (0.9994 : ℚ) ^ 25397 := by linarith
    exact absurd this (ne_of_lt hlt)

/-! ### Score submission handler (`server/web/handlers/score_sub.py`)

The handler's relational and in-process effects are modelled as a `World`
record; collaborators the spec declares external (redis presence, pep.py
notifications, the discord webhook, the ranked-position store, the
dynamically configured achievement predicates, beatmap play-count
counters) are not part of the tracked state. -/

/-- A row of the `first_places` table (the columns the modelled flow
writes). -/
structure FirstPlaceRow where
  scoreId : Nat
  userId : Nat
  score : Nat
  md5 : String
  mode : Mode
  cMode : CustomModes
  deriving DecidableEq

/-- An entry of the in-process leaderboard cache: one best row of one
player on one (beatmap, variant, mode) leaderboard. -/
structure LbEntry where
  md5 : String
  cMode : CustomModes
  mode : Mode
  userId : Nat
  scoreId : Nat
  deriving DecidableEq

/-- The state the submission pipeline reads and mutates. -/
structure World where
  scores : List ScoreRow
  users : List UserRow
  statsRows : List StatsRow
  beatmaps : List BmapRow
  firstPlaces : List FirstPlaceRow
  lbCache : List LbEntry
  replays : List (Nat × String)
  restricted : List Nat
  deriving DecidableEq

/-- `edit_user(Actions.RESTRICT, ...)`: record the restriction action
issued for the player. -/
def restrictUser (w : World) (uid : Nat) : World :=
  { w with restricted := w.restricted ++ [uid] }

/-- An `if`-guarded restriction step. -/
def restrictIf (c : Prop) [Decidable c] (w : World) (uid : Nat) : World :=
  if c then restrictUser w uid else w

/-- The request context: the externally supplied flags and payloads the
handler consults.  `modsRankable`, `modsConflict` abstract the pure mod
predicates of the mods module (not under src); `surpassedCap` abstracts
the anticheat module's threshold test; `lbCached` is whether
`GlobalLeaderboard.from_cache` finds a built leaderboard; `calcPpResult`
is the external performance calculator's output (`none` = it raised, the
value degrades to the score's current pp). -/
structure SubCtx where
  online : Bool
  passwordOk : Bool
  tokenPresent : Bool
  customClients : Bool
  userAgentOsu : Bool
  modsRankable : Bool
  modsConflict : Bool
  privIsNotAllowed : Bool
  privUserPublic : Bool
  lbCached : Bool
  surpassedCap : Bool
  replay : String
  calcPpResult : Option ℚ
  deriving DecidableEq

/-- The anticheat checks run before the duplicate check (lines 75-89 of
the handler): each one only restricts, none returns. -/
def anticheatPre (w : World) (ctx : SubCtx) (uid : Nat) : World :=
  restrictIf (ctx.modsConflict = true)
    (restrictIf (ctx.userAgentOsu = false)
      (restrictIf (ctx.tokenPresent = false ∧ ctx.customClients = false)
        w uid) uid) uid

/-- The duplicate-detection query: an existing row with identical
(player, beatmap, raw score, mode, mods) in this variant's table. -/
def dupeExists (scores : List ScoreRow) (s : Score) (md5 : String) : Bool :=
  scores.any (fun r => decide (r.cMode = s.cMode) && decide (r.userId = s.userId)
    && decide (r.md5 = md5) && decide (r.score = s.score)
    && decide (r.mode = s.mode) && decide (r.mods = s.mods))

/-- `Stats.from_id` for the submitting player (cache and relational store
agree in the model). -/
def findStats (w : World) (uid : Nat) (mode : Mode) (cm : CustomModes) :
    Option StatsRow :=
  w.statsRows.find? (fun st => decide (st.userId = uid)
    && decide (st.mode = mode) && decide (st.cMode = cm))

/-- The previous-best fetch (completed = 3 on the same map/mode). -/
def findPrevBest (scores : List ScoreRow) (s : Score) (md5 : String) :
    Option ScoreRow :=
  scores.find? (fun r => decide (r.cMode = s.cMode)
    && decide (r.userId = s.userId) && decide (r.md5 = md5)
    && decide (r.completed = Completed.best) && decide (r.mode = s.mode))

/-- The auto-increment id assigned by the score INSERT. -/
def nextScoreId (scores : List ScoreRow) : Nat :=
  (scores.foldl (fun m r => max m r.id) 0) + 1

/-- The `DELETE FROM first_places ... LIMIT 1` of `on_first_place`:
remove the first matching row. -/
def deleteFirstPlace (md5 : String) (mode : Mode) (cm : CustomModes) :
    List FirstPlaceRow → List FirstPlaceRow
  | [] => []
  | f :: fs =>
    if f.md5 = md5 ∧ f.mode = mode ∧ f.cMode = cm then fs
    else f :: deleteFirstPlace md5 mode cm fs

/-- `Score.on_first_place`: replace the cached first-place row (the
announcement itself goes to an external collaborator). -/
def onFirstPlace (w : World) (s : Score) (bm : Beatmap) : World :=
  { w with firstPlaces :=
      deleteFirstPlace bm.md5 s.mode s.cMode w.firstPlaces
        ++ [⟨s.id, s.userId, s.score, bm.md5, s.mode, s.cMode⟩] }

/-- Modelled from the spec: `insertUserScore` of the leaderboard cache
(the leaderboard module is not under src) — any prior entry of the same
player on this leaderboard is removed first, then the newly best score is
inserted, keeping at most one best row per player. -/
def lbInsertUserScore (lb : List LbEntry) (s : Score) (bm : Beatmap) :
    List LbEntry :=
  (lb.filter (fun e => ! (decide (e.md5 = bm.md5) && decide (e.cMode = s.cMode)
    && decide (e.mode = s.mode) && decide (e.userId = s.userId))))
    ++ [⟨bm.md5, s.cMode, s.mode, s.userId, s.id⟩]

/-- `Stats.save`: write the mutated stats record back over its row. -/
def saveStats (rows : List StatsRow) (st : StatsRow) : List StatsRow :=
  rows.map (fun r =>
    if r.userId = st.userId ∧ r.mode = st.mode ∧ r.cMode = st.cMode then st
    else r)

/-- `Score.submit` (with its default flags, `restricted` as passed by the
handler): calc_pp, calc_completed, calc_placement, the INSERT, the
first-place flow and the submit-side leaderboard-cache insert.  `none`
models the attribute error on a score without a beatmap. -/
def scoreSubmitFn (w : World) (s0 : Score) (restricted : Bool)
    (ppResult : Option ℚ) : Option (Score × World) :=
  match s0.bmap with
  | none => none
  | some bm =>
    let s1 := { s0 with
      pp := if bm.hasLeaderboard = false then 0
        else (match ppResult with | some v => v | none => s0.pp) }
    match s1.calcCompleted w.scores with
    | none => none
    | some (comp, rows2) =>
      let s2 := { s1 with completed := some comp }
      match s2.calcPlacement rows2 w.users with
      | none => none
      | some plc =>
        let s3 := { s2 with placement := plc }
        let sid := nextScoreId rows2
        let s4 := { s3 with id := sid }
        let newRow : ScoreRow := ⟨sid, s4.userId, bm.md5, s4.score,
          s4.maxCombo, s4.mods, s4.mode, s4.cMode, comp, s4.pp, s4.accuracy⟩
        let w2 := { w with scores := rows2 ++ [newRow] }
        let w3 := if plc = 1 ∧ restricted = false then onFirstPlace w2 s4 bm
          else w2
        let w4 := if comp = Completed.best ∧ bm.hasLeaderboard = true
            ∧ restricted = false then
            { w3 with lbCache := lbInsertUserScore w3.lbCache s4 bm }
          else w3
        some (s4, w4)

/-- The handler's observable outcome: a plain-text sentinel, the ranking
panels (body elided: response formatting is out of the modelled core), or
an uncaught exception surfacing to the transport. -/
inductive HandlerResp
  | text (s : String)
  | panels
  | exception
  deriving DecidableEq

/-- `score_submit_handler`.  A failed parse (`Score.from_score_sub`
returned `None`) raises before anything else: the very next statement
evaluates `s.user_id` on `None` (the `if not s` guard sits two statements
too late and is unreachable), modelled as an exception outcome.  The
stats update, replay handling and the late anticheat checks follow the
source ordering. -/
def scoreSubmitHandler (w : World) (parsed : Option Score) (ctx : SubCtx) :
    HandlerResp × World :=
  match parsed with
  | none => (HandlerResp.exception, w)
  | some s =>
    if ctx.online = false then (HandlerResp.text "", w)
    else
      match s.bmap with
      | none => (HandlerResp.text "error: no", w)
      | some bm =>
        if ctx.modsRankable = false then (HandlerResp.text "error: no", w)
        else if ctx.passwordOk = false then (HandlerResp.text "error: pass", w)
        else
          let w3 := anticheatPre w ctx s.userId
          if dupeExists w3.scores s bm.md5 = true then
            (HandlerResp.text "error: no", w3)
          else
            match findStats w3 s.userId s.mode s.cMode with
            | none => (HandlerResp.exception, w3)
            | some stats0 =>
              let prevRow := if s.passed then findPrevBest w3.scores s bm.md5
                else none
              match scoreSubmitFn w3 s ctx.privIsNotAllowed ctx.calcPpResult with
              | none => (HandlerResp.exception, w3)
              | some (s2, w4) =>
                let w5 := if s2.completed = some Completed.best
                    ∧ bm.hasLeaderboard = true
                    ∧ ctx.privIsNotAllowed = false ∧ ctx.lbCached = true then
                    { w4 with lbCache := lbInsertUserScore w4.lbCache s2 bm }
                  else w4
                let st1 := { stats0 with
                  playcount := stats0.playcount + 1
                  totalScore := stats0.totalScore + (s2.score : Int)
                  totalHits := stats0.totalHits
                    + (s2.count300 + s2.count100 + s2.count50) }
                let addScore : Int := (s2.score : Int) -
                  (match prevRow with
                   | some pr =>
                     if s2.completed = some Completed.best then (pr.score : Int)
                     else 0
                   | none => 0)
                let st2 := if s2.passed = true ∧ bm.hasLeaderboard = true then
                    let stA := if bm.status = 2 then
                        { st1 with rankedScore := st1.rankedScore + addScore }
                      else st1
                    let stB := if stA.maxCombo < s2.maxCombo then
                        { stA with maxCombo := s2.maxCombo }
                      else stA
                    if s2.completed = some Completed.best ∧ s2.pp ≠ 0 then
                      recalcPpAccFull w5.scores w5.beatmaps stB (some s2.pp)
                    else stB
                  else st1
                let w6 := { w5 with statsRows := saveStats w5.statsRows st2 }
                let w7 := restrictIf (ctx.replay ≠ "" ∧ ctx.replay ≠ "\r\n"
                  ∧ s2.passed = false) w6 s2.userId
                let w8 := if s2.passed = true then
                    { w7 with replays := w7.replays ++ [(s2.id, ctx.replay)] }
                  else w7
                let w9 := restrictIf (s2.completed = some Completed.best
                  ∧ ctx.surpassedCap = true) w8 s2.userId
                (HandlerResp.panels, w9)

/-! ### Submission parsing (`Score.from_score_sub`) -/

/-- Modelled from the spec: `validate_md5` of the crypt module (not under
src) — a well-formed hash is a 32-character lowercase hex string. -/
def validateMd5 (s : String) : Bool :=
  decide (s.length = 32) && s.toList.all (fun c =>
    (decide ('0' ≤ c) && decide (c ≤ '9'))
      || (decide ('a' ≤ c) && decide (c ≤ 'f')))

/-- Python `int(...)` on a decimal field.  A malformed numeric raises in
the source; such requests are outside the submissions modelled here. -/
def pyNat (s : String) : Nat :=
  (s.toNat?).getD 0

/-- Python `str.rstrip()`. -/
def pyRstrip (s : String) : String :=
  s.trimRight

/-- Modelled from the spec: `CustomModes.from_mods` (c_modes module not
under src) — the relax modifier selects the relax variant, the autopilot
modifier the autopilot variant, otherwise vanilla. -/
def CustomModes.fromMods (mods : Nat) : CustomModes :=
  if mods.testBit 7 then CustomModes.relax
  else if mods.testBit 13 then CustomModes.autopilot
  else CustomModes.vanilla

/-- The game mode from its wire integer. -/
def Mode.fromNat (n : Nat) : Mode :=
  if n = 0 then Mode.standard
  else if n = 1 then Mode.taiko
  else if n = 2 then Mode.catch
  else Mode.mania

/-- `Score.from_score_sub` after decryption: the colon-split field list is
validated (well-formed beatmap hash first, then exactly 18 fields — both
failures return `None`), then the score object is built and its accuracy
computed.  The caller supplies the resolved user id, the fetched beatmap,
the timestamp and the `x` (quit) argument; a zero accuracy denominator
raises in the source (claim C10), modelled as `none` here as well since
the handler observes an exception either way. -/
def fromScoreSub (fields : List String) (userId : Nat)
    (bmap : Option Beatmap) (now : Nat) (quitFlag : Bool) : Option Score :=
  if validateMd5 (fields.headD "") = false then none
  else if fields.length ≠ 18 then none
  else
    let mods := pyNat (fields.getD 13 "")
    let s : Score :=
      { id := 0
        bmap := bmap
        userId := userId
        score := pyNat (fields.getD 9 "")
        maxCombo := pyNat (fields.getD 10 "")
        fullCombo := (fields.getD 11 "") == "True"
        passed := (fields.getD 14 "") == "True"
        quit := quitFlag
        mods := mods
        cMode := CustomModes.fromMods mods
        count300 := pyNat (fields.getD 3 "")
        count100 := pyNat (fields.getD 4 "")
        count50 := pyNat (fields.getD 5 "")
        countKatu := pyNat (fields.getD 7 "")
        countGeki := pyNat (fields.getD 6 "")
        countMiss := pyNat (fields.getD 8 "")
        timestamp := now
        mode := Mode.fromNat (pyNat (fields.getD 15 ""))
        completed := none
        accuracy := 0
        pp := 0
        playTime := 0
        placement := 0
        grade := fields.getD 12 ""
        sr := 0
        username := pyRstrip (fields.getD 1 "") }
    match s.calcAccuracy with
    | none => none
    | some a => some { s with accuracy := a }

/-! ### Claim C7 -/

/-- A decrypted payload that splits into only 17 fields (its leading
beatmap hash is well-formed). -/
def c7Fields : List String :=
  "0123456789abcdef0123456789abcdef" :: List.replicate 16 "0"

/-- An arbitrary starting world for the C7 run. -/
def c7World : World :=
  ⟨[], [⟨1, true⟩], [], [], [], [], [], []⟩

/-- The C7 request context (all checks would pass). -/
def c7Ctx : SubCtx :=
  ⟨true, true, true, false, true, true, false, false, true, false, false,
    "", none⟩

/-- C7 evaluated at the failing input: a 17-field payload makes
`from_score_sub` return `None`, and the handler then RAISES (the
`check_online(s.user_id)` attribute access precedes the `if not s` guard,
which is unreachable) instead of answering with the "error: no" sentinel
the claim requires; no state is mutated either way. -/
theorem c7_parse_failure_raises :
    fromScoreSub c7Fields 1 none 0 false = none ∧
    scoreSubmitHandler c7World (fromScoreSub c7Fields 1 none 0 false) c7Ctx
      = (HandlerResp.exception, c7World) := by
  have h : fromScoreSub c7Fields 1 none 0 false = none := by decide
  exact ⟨h, by rw [h]; rfl⟩

/-! ### Claim C5 -/

/-- The early anticheat steps touch only the restriction log. -/
theorem anticheatPre_fields (w : World) (ctx : SubCtx) (uid : Nat) :
    (anticheatPre w ctx uid).scores = w.scores ∧
    (anticheatPre w ctx uid).statsRows = w.statsRows ∧
    (anticheatPre w ctx uid).lbCache = w.lbCache ∧
    (anticheatPre w ctx uid).firstPlaces = w.firstPlaces ∧
    (anticheatPre w ctx uid).replays = w.replays := by
  unfold anticheatPre restrictIf restrictUser
  split <;> split <;> split <;> exact ⟨rfl, rfl, rfl, rfl, rfl⟩

/-- C5: a submission identical in (player, beatmap, raw score, mode,
mods) to an already-persisted row of the same variant table is answered
with the "error: no" sentinel, and the duplicate check precedes every
persistence step: the score table, statistics, leaderboard cache,
first places and replay store are all left exactly as they were.  (The
pre-dupe anticheat steps may only have appended to the restriction log,
which is not score/leaderboard/statistics state.) -/
theorem c5_duplicate_rejected (w : World) (s : Score) (ctx : SubCtx)
    (bm : Beatmap)
    (hbm : s.bmap = some bm)
    (hon : ctx.online = true)
    (hrk : ctx.modsRankable = true)
    (hpw : ctx.passwordOk = true)
    (hdupe : dupeExists w.scores s bm.md5 = true) :
    (scoreSubmitHandler w (some s) ctx).1 = HandlerResp.text "error: no" ∧
    (scoreSubmitHandler w (some s) ctx).2.scores = w.scores ∧
    (scoreSubmitHandler w (some s) ctx).2.statsRows = w.statsRows ∧
    (scoreSubmitHandler w (some s) ctx).2.lbCache = w.lbCache ∧
    (scoreSubmitHandler w (some s) ctx).2.firstPlaces = w.firstPlaces ∧
    (scoreSubmitHandler w (some s) ctx).2.replays = w.replays := by
  obtain ⟨hsc, hst, hlb, hfp, hrp⟩ := anticheatPre_fields w ctx s.userId
  have hred : scoreSubmitHandler w (some s) ctx
      = (HandlerResp.text "error: no", anticheatPre w ctx s.userId) := by
    unfold scoreSubmitHandler
    dsimp only
    rw [if_neg (by simp [hon]), hbm]
    dsimp only
    rw [if_neg (by simp [hrk]), if_neg (by simp [hpw])]
    rw [if_pos (by rw [hsc]; exact hdupe)]
  rw [hred]
  exact ⟨rfl, hsc, hst, hlb, hfp, hrp⟩

/-- A persisted best row for user 1 on map "m5". -/
def c5Row : ScoreRow :=
  ⟨3, 1, "m5", 500, 10, 8, Mode.standard, CustomModes.vanilla,
    Completed.best, 20, 0⟩

/-- A world already holding `c5Row`. -/
def c5World : World :=
  ⟨[c5Row], [⟨1, true⟩],
    [⟨1, Mode.standard, CustomModes.vanilla, 0, 0, 0, 0, 0, 0, 0, 0, 0⟩],
    [⟨"m5", 2⟩], [], [], [], []⟩

/-- The same (player, beatmap, raw score, mode, mods) tuple submitted
again. -/
def c5Score : Score :=
  { baseScore with
    bmap := some ⟨"m5", true, 2⟩
    score := 500
    maxCombo := 10
    mods := 8 }

/-- The C5 request context (all earlier checks succeed). -/
def c5Ctx : SubCtx :=
  ⟨true, true, true, false, true, true, false, false, true, false, false,
    "RP", some 20⟩

/-- Witness for C5 at the concrete duplicate. -/
theorem c5_duplicate_rejected_witness :
    (scoreSubmitHandler c5World (some c5Score) c5Ctx).1
      = HandlerResp.text "error: no" ∧
    (scoreSubmitHandler c5World (some c5Score) c5Ctx).2.scores
      = c5World.scores ∧
    (scoreSubmitHandler c5World (some c5Score) c5Ctx).2.statsRows
      = c5World.statsRows := by
  have h := c5_duplicate_rejected c5World c5Score c5Ctx ⟨"m5", true, 2⟩
    rfl rfl rfl rfl (by decide)
  exact ⟨h.1, h.2.1, h.2.2.1⟩

/-! ### Claim C8 -/

/-- The beatmap of the C8 runs: ranked, with a leaderboard. -/
def c8Bmap : Beatmap := ⟨"m8", true, 2⟩

/-- The world of the C8 runs: no scores yet, user 1 public with a stats
row, map "m8" ranked. -/
def c8World : World :=
  ⟨[], [⟨1, true⟩],
    [⟨1, Mode.standard, CustomModes.vanilla, 0, 0, 0, 0, 0, 0, 0, 0, 0⟩],
    [⟨"m8", 2⟩], [], [], [], []⟩

/-- A passed play by user 1. -/
def c8PassScore : Score :=
  { baseScore with
    bmap := some c8Bmap
    score := 1000
    maxCombo := 5
    count300 := 1 }

/-- The same play, failed. -/
def c8FailScore : Score :=
  { c8PassScore with passed := false }

/-- The C8 context for a submission carrying NO replay payload. -/
def c8CtxNoReplay : SubCtx :=
  ⟨true, true, true, false, true, true, false, false, true, false, false,
    "", some 0⟩

/-- The C8 context for a submission carrying a replay payload. -/
def c8CtxReplay : SubCtx :=
  { c8CtxNoReplay with replay := "RP" }

/-- C8 evaluated at the failing inputs: the replay check of the handler is
INVERTED (`if replay and replay != b"\r\n" and not s.passed`) — a PASSED
play submitted with NO replay is not restricted at all (and its empty
replay is even written to the replay store), while a FAILED play submitted
WITH a replay gets the account restricted; in both runs the score row is
recorded.  The claim (and the restriction message "Score submit without
replay" itself) describes the opposite, intended condition. -/
theorem c8_replay_check_inverted :
    (scoreSubmitHandler c8World (some c8PassScore) c8CtxNoReplay).2.restricted
      = [] ∧
    (scoreSubmitHandler c8World (some c8PassScore) c8CtxNoReplay).2.scores.length
      = 1 ∧
    (scoreSubmitHandler c8World (some c8PassScore) c8CtxNoReplay).2.replays
      = [(1, "")] ∧
    (scoreSubmitHandler c8World (some c8FailScore) c8CtxReplay).2.restricted
      = [1] ∧
    (scoreSubmitHandler c8World (some c8FailScore) c8CtxReplay).2.scores.length
      = 1 := by
  refine ⟨by decide, by decide, by decide, by decide, by decide⟩
